import Mathlib

/-!
Shallow embedding of `pymatgen/phonon/ir_spectra.py` (class `IRDielectricTensor`).

Real numbers of the source (Python floats / numpy arrays) are modelled as `ℚ`;
complex numbers as pairs `ℚ × ℚ` (real part, imaginary part); numpy arrays as
lists, and 3×3 matrices as functions `Fin 3 → Fin 3 → _`.  Python exceptions
(`raise ValueError`, `max` of an empty sequence) are modelled with `Except`.
-/

set_option maxRecDepth 8000

namespace IRSpectra

/-- Complex numbers over `ℚ`: `(re, im)` pairs. -/
abbrev QC : Type := ℚ × ℚ

/-- Complex division, as numpy performs it elementwise: multiply by the
conjugate of the denominator and divide by its squared modulus. -/
def QC.div (x y : QC) : QC :=
  ((x.1 * y.1 + x.2 * y.2) / (y.1 ^ 2 + y.2 ^ 2),
   (x.2 * y.1 - x.1 * y.2) / (y.1 ^ 2 + y.2 ^ 2))

/-- A 3×3 complex tensor. -/
abbrev T3 : Type := Fin 3 → Fin 3 → QC

/-- A 3×3 real matrix. -/
abbrev M3 : Type := Fin 3 → Fin 3 → ℚ

/-- The all-zeros 3×3 real matrix (default for out-of-range list access). -/
def zeroM : M3 := fun _ _ => 0

/-- The all-zeros 3×3 complex tensor (`np.zeros((3, 3), dtype=complex)`). -/
def zeroT : T3 := fun _ _ => ((0 : ℚ), (0 : ℚ))

/-- Modelled from the spec: the external crystal-structure component
(`pymatgen.core.structure.Structure`, a file of this repository that is not
under `src/`).  The spec treats it as an opaque record carried "only for
provenance and serialization", whose own serializer round-trips ("structure
delegated to its own serializer"; round trip reproduces "an equivalent
structure").  We model it as an opaque token with an identity serializer. -/
structure PmgStructure where
  data : ℕ
deriving DecidableEq

/-- Modelled from the spec: `Structure.as_dict` of the external component. -/
def PmgStructure.as_dict (s : PmgStructure) : ℕ := s.data

/-- Modelled from the spec: `Structure.from_dict` of the external component. -/
def PmgStructure.from_dict (d : ℕ) : PmgStructure := ⟨d⟩

/-- The state of `IRDielectricTensor` after `__init__`: the oscillator
strengths are stored real-valued (`np.array(oscillator_strength).real`). -/
structure IRDielectricTensor where
  structure_ : PmgStructure
  oscillator_strength : List M3
  phfreqs_gamma : List ℚ
  epsilon_infinity : M3

/-- `IRDielectricTensor.__init__`: stores the structure, the real part of the
(possibly complex) oscillator strengths, the frequencies and epsilon_infinity. -/
def IRDielectricTensor.init (oscillator_strength : List T3) (phfreqs_gamma : List ℚ)
    (epsilon_infinity : M3) (structure_ : PmgStructure) : IRDielectricTensor :=
  { structure_ := structure_
    oscillator_strength := oscillator_strength.map (fun M => fun a b => (M a b).1)
    phfreqs_gamma := phfreqs_gamma
    epsilon_infinity := epsilon_infinity }

/-- The dict produced by `IRDielectricTensor.as_dict` (the `@module`/`@class`
tags are the literal strings of the source class). -/
structure IRRecord where
  moduleTag : String
  classTag : String
  oscillator_strength : List M3
  phfreqs_gamma : List ℚ
  structureDict : ℕ
  epsilon_infinity : M3

/-- `IRDielectricTensor.as_dict`: arrays via `.tolist()` (identity here, the
stored arrays are already real), structure via its own serializer. -/
def IRDielectricTensor.as_dict (m : IRDielectricTensor) : IRRecord :=
  { moduleTag := "pymatgen.phonon.ir_spectra"
    classTag := "IRDielectricTensor"
    oscillator_strength := m.oscillator_strength
    phfreqs_gamma := m.phfreqs_gamma
    structureDict := PmgStructure.as_dict m.structure_
    epsilon_infinity := m.epsilon_infinity }

/-- `IRDielectricTensor.from_dict`: rebuilds the structure with its own
deserializer and passes the (real) stored lists back through `__init__`
(where they are re-read as complex arrays with zero imaginary part). -/
def IRDielectricTensor.from_dict (d : IRRecord) : IRDielectricTensor :=
  IRDielectricTensor.init
    (d.oscillator_strength.map (fun M => fun a b => ((M a b : ℚ), (0 : ℚ))))
    d.phfreqs_gamma d.epsilon_infinity (PmgStructure.from_dict d.structureDict)

/-- `nphfreqs` property: `len(self.phfreqs_gamma)`. -/
def IRDielectricTensor.nphfreqs (m : IRDielectricTensor) : ℕ :=
  m.phfreqs_gamma.length

/-- Python `max` over a list: `none` on the empty list (where Python raises). -/
def listMax : List ℚ → Option ℚ
  | [] => none
  | x :: xs => some (xs.foldl max x)

/-- `max_phfreq` property: `max(self.phfreqs_gamma)`. -/
def IRDielectricTensor.max_phfreq (m : IRDielectricTensor) : Option ℚ :=
  listMax m.phfreqs_gamma

/-- The `broad` argument of `get_ir_spectra`: "a list of broadenings or a
single broadening" (the source's `isinstance(broad, float)` duck typing made
explicit as a tagged sum). -/
inductive Broad where
  | scalar (b : ℚ)
  | list (bs : List ℚ)

/-- The first two lines of `get_ir_spectra`: a scalar broadening is expanded
to `[broad]*self.nphfreqs`; a list is kept as given. -/
def resolvedBroad (m : IRDielectricTensor) : Broad → List ℚ
  | Broad.scalar b => List.replicate m.nphfreqs b
  | Broad.list bs => bs

/-- The `ValueError` message raised on a broadening list of the wrong length. -/
def broadLenMsg : String :=
  "The number of elements in the broad_list is not the same as the number of frequencies"

/-- The `ValueError` Python's `max` raises on an empty sequence (hit when
`emax is None` and the model has no phonon modes). -/
def maxEmptyMsg : String := "max() arg is an empty sequence"

/-- `np.linspace(start, stop, num)` with its endpoint convention: `num`
uniformly spaced samples including both ends; a single sample is `start`. -/
def linspace (start stop : ℚ) (num : ℕ) : List ℚ :=
  if num = 0 then []
  else if num = 1 then [start]
  else (List.range num).map
    (fun (k : ℕ) => start + (stop - start) * (k : ℚ) / ((num - 1 : ℕ) : ℚ))

/-- One mode's contribution at sample frequency `w` (the body of the loop in
`get_ir_spectra`): `g = broad[i]*phfreqs_gamma[i]`, numerator
`oscillator_strength[i]`, denominator `phfreqs_gamma[i]**2 - w**2 - 1j*g`. -/
def modeTerm (m : IRDielectricTensor) (bl : List ℚ) (w : ℚ) (i : ℕ) : T3 :=
  fun a b =>
    QC.div ((m.oscillator_strength.getD i zeroM) a b, 0)
      ((m.phfreqs_gamma.getD i 0) ^ 2 - w ^ 2,
        -(bl.getD i 0 * m.phfreqs_gamma.getD i 0))

/-- The accumulation loop of `get_ir_spectra`: starting from
`np.zeros((3,3), complex)`, add every mode `i in range(3, len(phfreqs_gamma))`. -/
def sumModes (m : IRDielectricTensor) (bl : List ℚ) (w : ℚ) : T3 :=
  (List.range' 3 (m.nphfreqs - 3)).foldl (fun acc i => acc + modeTerm m bl w i) zeroT

/-- `epsilon_infinity` broadcast to a complex tensor (the final
`dielectric_tensor += self.epsilon_infinity` line). -/
def epsT (m : IRDielectricTensor) : T3 := fun a b => (m.epsilon_infinity a b, 0)

/-- The spectrum for a fully resolved frequency window: the frequency grid and
the dielectric tensor sampled over it. -/
def spectrumAt (m : IRDielectricTensor) (bl : List ℚ) (emin emax : ℚ) (divs : ℕ) :
    List ℚ × List T3 :=
  (linspace emin emax divs,
   (linspace emin emax divs).map (fun w => sumModes m bl w + epsT m))

/-- `IRDielectricTensor.get_ir_spectra(broad, emin, emax, divs)`: resolve the
broadening, reject a wrong-length list, default `emax` to
`max_phfreq + max(broad)*20` when unset, and sample the dielectric tensor on
`np.linspace(emin, emax, divs)`. -/
def IRDielectricTensor.get_ir_spectra (m : IRDielectricTensor) (broad : Broad)
    (emin : ℚ) (emax? : Option ℚ) (divs : ℕ) : Except String (List ℚ × List T3) :=
  if (resolvedBroad m broad).length ≠ m.nphfreqs then Except.error broadLenMsg
  else
    match emax? with
    | some emax => Except.ok (spectrumAt m (resolvedBroad m broad) emin emax divs)
    | none =>
        match IRDielectricTensor.max_phfreq m, listMax (resolvedBroad m broad) with
        | some mf, some mb =>
            Except.ok (spectrumAt m (resolvedBroad m broad) emin (mf + mb * 20) divs)
        | _, _ => Except.error maxEmptyMsg

/-- C1's formula as the spec states it: at sample frequency `w`, the sum over
modes `i = 3..N-1` of `oscillator_strength[i] / (frequency[i]^2 - w^2 - j*g_i)`
with `g_i = b[i] * frequency[i]`, plus `epsilon_infinity` added exactly once. -/
def claimTensor (m : IRDielectricTensor) (b : List ℚ) (w : ℚ) : T3 :=
  (∑ i in Finset.Ico 3 m.nphfreqs, fun a c =>
      QC.div ((m.oscillator_strength.getD i zeroM) a c, 0)
        ((m.phfreqs_gamma.getD i 0) ^ 2 - w ^ 2,
          -(b.getD i 0 * m.phfreqs_gamma.getD i 0)))
    + epsT m

/-- The grid shape asserted by the spec's "Grid shape" property: `divs`
samples, first `emin`, last `emax`, monotone (strictly so on a nondegenerate
window). -/
def gridShapeProp (grid : List ℚ) (emin emax : ℚ) (divs : ℕ) : Prop :=
  grid.length = divs
    ∧ (∀ h0 : 0 < grid.length, grid.get ⟨0, h0⟩ = emin)
    ∧ (∀ hl : divs - 1 < grid.length, grid.get ⟨divs - 1, hl⟩ = emax)
    ∧ (∀ a b : Fin grid.length, (a : ℕ) ≤ (b : ℕ) → grid.get a ≤ grid.get b)
    ∧ (emin < emax →
        ∀ a b : Fin grid.length, (a : ℕ) < (b : ℕ) → grid.get a < grid.get b)

/-- A direction item of a component specifier: in the source a component is
iterated, each element being either a character (from a string such as
`"xx"`) or a Python integer index (from a pair such as `(0, 1)`). -/
inductive DirItem where
  | chr (c : Char)
  | idx (n : ℤ)
deriving DecidableEq

/-- The source's `directions_map` dictionary
`{'x': 0, 'y': 1, 'z': 2, 0: 0, 1: 1, 2: 2}` as a partial lookup. -/
def directions_map : DirItem → Option (Fin 3)
  | DirItem.chr c =>
      if c = 'x' then some 0 else if c = 'y' then some 1
      else if c = 'z' then some 2 else none
  | DirItem.idx n =>
      if n = 0 then some 0 else if n = 1 then some 1
      else if n = 2 then some 2 else none

/-- Rendering of one direction item, for the `ValueError` message text. -/
def dirItemStr : DirItem → String
  | DirItem.chr c => String.mk [c]
  | DirItem.idx n => toString n

/-- The `ValueError` message
`'Invalid value found in components: {}'.format(component)`. -/
def invalidComponentMsg (component : List DirItem) : String :=
  "Invalid value found in components: " ++ String.join (component.map dirItemStr)

/-- The per-component validation and resolution of `get_plotter`: reject a
specifier unless every item is in `directions_map` and it has length 2, else
unpack it into the two direction indices `i, j`. -/
def resolveComponent (component : List DirItem) : Except String (Fin 3 × Fin 3) :=
  if (¬ ∀ d ∈ component, (directions_map d).isSome) ∨ component.length ≠ 2 then
    Except.error (invalidComponentMsg component)
  else
    Except.ok ((directions_map (component.getD 0 (DirItem.idx 0))).getD 0,
               (directions_map (component.getD 1 (DirItem.idx 0))).getD 0)

/-- Character-list prefix test (helper for the substring test below). -/
def leadsWith : List Char → List Char → Bool
  | [], _ => true
  | _ :: _, [] => false
  | a :: as, b :: bs => a = b && leadsWith as bs

/-- Python's `in` on strings: `pat in s` iff `pat` occurs as a contiguous
substring of `s`. -/
def hasSub (pat : List Char) : List Char → Bool
  | [] => leadsWith pat []
  | s₀ :: rest => leadsWith pat (s₀ :: rest) || hasSub pat rest

/-- The key `'re'` of the source's `functions_map`. -/
def reTok : String := "re"

/-- The key `'im'` of the source's `functions_map`. -/
def imTok : String := "im"

/-- The keys of `functions_map` that occur in the `reim` argument, in the
dictionary's insertion order (`'re'` then `'im'`). -/
def partsFor (reim : String) : List String :=
  [reTok, imTok].filter (fun fstr => hasSub fstr.data reim.data)

/-- `functions_map`: `.real` for `'re'`, `.imag` for `'im'`. -/
def applyPart (fstr : String) (z : QC) : ℚ :=
  if fstr = reTok then z.1 else z.2

/-- `reim_label = {'re': 'Re', 'im': 'Im'}`. -/
def reim_label (fstr : String) : String :=
  if fstr = reTok then "Re" else "Im"

/-- `'xyz'[i]`. -/
def xyzName (i : Fin 3) : String :=
  if i = 0 then "x" else if i = 1 then "y" else "z"

/-- Literal fragment of the label format string (the opening
`{$\epsilon_{` with braces escaped). -/
def labelOpen : String := "\x7b$\\epsilon_\x7b"

/-- Literal fragment of the label format string (the closing `}$}`). -/
def labelClose : String := "\x7d$\x7d"

/-- The label `r"%s{$\epsilon_{%s%s}$}" % (reim_label[fstr], 'xyz'[i], 'xyz'[j])`. -/
def curveLabel (fstr : String) (i j : Fin 3) : String :=
  reim_label fstr ++ labelOpen ++ xyzName i ++ xyzName j ++ labelClose

/-- The external `Spectrum(frequencies*1000, y, label=label)` object: a
labeled curve with x and y data (the external class is an output sink). -/
structure SpectrumCurve where
  x : List ℚ
  y : List ℚ
  label : String

/-- One curve of `get_plotter`: `x = frequencies*1000`,
`y = f(dielectric_tensor[:, i, j])` for the part selected by `fstr`. -/
def mkCurve (g : List ℚ) (f : List T3) (fstr : String) (i j : Fin 3) : SpectrumCurve :=
  { x := g.map (fun w => w * 1000)
    y := f.map (fun t => applyPart fstr (t i j))
    label := curveLabel fstr i j }

/-- The component loop of `get_plotter`: validate and resolve each component
in caller order (raising propagates the first failure), and emit one curve per
requested part of `reim` for each component. -/
def plotterLoop (g : List ℚ) (f : List T3) (reim : String) :
    List (List DirItem) → Except String (List SpectrumCurve)
  | [] => Except.ok []
  | comp :: rest =>
      match resolveComponent comp with
      | Except.error e => Except.error e
      | Except.ok (i, j) =>
          match plotterLoop g f reim rest with
          | Except.error e => Except.error e
          | Except.ok curves =>
              Except.ok ((partsFor reim).map (fun fstr => mkCurve g f fstr i j) ++ curves)

/-- `IRDielectricTensor.get_plotter(components, reim)`: recompute the spectrum
with `self.get_ir_spectra()` — all parameters at their defaults
(`broad=0.00005`, `emin=0`, `emax=None`, `divs=500`) — then build the curves. -/
def IRDielectricTensor.get_plotter (m : IRDielectricTensor)
    (components : List (List DirItem)) (reim : String) :
    Except String (List SpectrumCurve) :=
  match IRDielectricTensor.get_ir_spectra m (Broad.scalar (5 / 100000)) 0 none 500 with
  | Except.error e => Except.error e
  | Except.ok (g, f) => plotterLoop g f reim components

/-- The source's default `reim="reim"` argument. -/
def reimDefault : String := "reim"

/-- Concrete model for witnesses: four modes (one past the three acoustic
ones), unit oscillator strength on the optical mode. -/
def stW : PmgStructure := ⟨0⟩

/-- The all-ones 3×3 real matrix, a concrete oscillator strength. -/
def oneM : M3 := fun _ _ => 1

/-- Witness model with one contributing optical mode. -/
def mW : IRDielectricTensor :=
  { structure_ := stW
    oscillator_strength := [zeroM, zeroM, zeroM, oneM]
    phfreqs_gamma := [0, 0, 0, 1]
    epsilon_infinity := zeroM }

/-- Witness model with zero oscillator strengths (spectrum is identically
`epsilon_infinity`). -/
def mZ : IRDielectricTensor :=
  { structure_ := stW
    oscillator_strength := [zeroM, zeroM, zeroM, zeroM]
    phfreqs_gamma := [0, 0, 0, 1]
    epsilon_infinity := zeroM }

/-- Witness model with fewer than three modes (empty optical sum). -/
def mS : IRDielectricTensor :=
  { structure_ := stW
    oscillator_strength := [zeroM, zeroM]
    phfreqs_gamma := [0, 0]
    epsilon_infinity := oneM }

/-- The per-mode broadening list used in the C1 witness. -/
def lW : List ℚ := [0, 0, 0, 1]

end IRSpectra

namespace IRSpectra

/-- C2 — For every model, `from_dict (as_dict m)` reproduces `m`'s
`oscillator_strength`, `phfreqs_gamma` and `epsilon_infinity` arrays
element-for-element, and an equivalent structure: the round trip is the
identity on the whole record. -/
theorem C2_round_trip (m : IRDielectricTensor) :
    IRDielectricTensor.from_dict (IRDielectricTensor.as_dict m) = m := by
  cases m with
  | mk st osc pf eps =>
      unfold IRDielectricTensor.from_dict IRDielectricTensor.as_dict
        IRDielectricTensor.init PmgStructure.as_dict PmgStructure.from_dict
      simp only [List.map_map]
      congr 1
      calc osc.map ((fun (M : T3) => fun a b => (M a b).1) ∘
              fun (M : M3) => fun a b => ((M a b : ℚ), (0 : ℚ)))
          = osc.map id := List.map_congr_left (fun M _ => rfl)
        _ = osc := List.map_id osc

/-- C9 — `__init__` stores exactly the elementwise real part of the raw
(possibly complex) oscillator-strength input; the imaginary part is discarded
without validation, so an input and its zero-imaginary-part truncation build
the same model. -/
theorem C9_real_part_stored (osc : List T3) (pf : List ℚ) (eps : M3)
    (st : PmgStructure) :
    (IRDielectricTensor.init osc pf eps st).oscillator_strength
        = osc.map (fun M => fun a b => (M a b).1)
      ∧ IRDielectricTensor.init osc pf eps st
          = IRDielectricTensor.init
              (osc.map (fun M => fun a b => ((M a b).1, (0 : ℚ)))) pf eps st := by
  refine ⟨rfl, ?_⟩
  unfold IRDielectricTensor.init
  simp only [List.map_map]
  congr 1

lemma zeroT_eq_zero : zeroT = 0 := rfl

lemma foldl_addT (f : ℕ → T3) (l : List ℕ) : ∀ init : T3,
    l.foldl (fun acc i => acc + f i) init = init + (l.map f).sum := by
  induction l with
  | nil => intro init; simp
  | cons a l ih => intro init; simp [ih, add_assoc]

lemma range'_map_sum (f : ℕ → T3) : ∀ n a : ℕ,
    ((List.range' a n).map f).sum = ∑ i in Finset.Ico a (a + n), f i := by
  intro n
  induction n with
  | zero => intro a; simp
  | succ n ih =>
      intro a
      rw [List.range'_succ, List.map_cons, List.sum_cons, ih (a + 1),
        show a + 1 + n = a + (n + 1) from by omega]
      exact (Finset.sum_eq_sum_Ico_succ_bot (by omega) f).symm

lemma sumModes_eq_sum (m : IRDielectricTensor) (bl : List ℚ) (w : ℚ) :
    sumModes m bl w = ∑ i in Finset.Ico 3 m.nphfreqs, modeTerm m bl w i := by
  unfold sumModes
  rw [foldl_addT, range'_map_sum, zeroT_eq_zero, zero_add]
  rcases le_or_lt m.nphfreqs 3 with h | h
  · rw [show m.nphfreqs - 3 = 0 from by omega, Nat.add_zero, Finset.Ico_self,
      Finset.Ico_eq_empty (by omega)]
  · rw [show 3 + (m.nphfreqs - 3) = m.nphfreqs from by omega]

lemma claimTensor_eq (m : IRDielectricTensor) (bl : List ℚ) (w : ℚ) :
    claimTensor m bl w = (∑ i in Finset.Ico 3 m.nphfreqs, modeTerm m bl w i) + epsT m :=
  rfl

lemma get_ir_spectra_ok (m : IRDielectricTensor) (broad : Broad) (emin : ℚ)
    (emax? : Option ℚ) (divs : ℕ) (grid : List ℚ) (field : List T3)
    (h : IRDielectricTensor.get_ir_spectra m broad emin emax? divs
        = Except.ok (grid, field)) :
    ∃ emax : ℚ, grid = linspace emin emax divs
      ∧ field = grid.map (fun w => sumModes m (resolvedBroad m broad) w + epsT m) := by
  unfold IRDielectricTensor.get_ir_spectra at h
  by_cases hlen : (resolvedBroad m broad).length ≠ m.nphfreqs
  · rw [if_pos hlen] at h
    exact absurd h (by simp)
  · rw [if_neg hlen] at h
    cases emax? with
    | some emax =>
        simp only [spectrumAt, Except.ok.injEq, Prod.mk.injEq] at h
        exact ⟨emax, h.1.symm, by rw [← h.1]; exact h.2.symm⟩
    | none =>
        cases hf : IRDielectricTensor.max_phfreq m with
        | none => rw [hf] at h; simp at h
        | some mf =>
            cases hb : listMax (resolvedBroad m broad) with
            | none => rw [hf, hb] at h; simp at h
            | some mb =>
                rw [hf, hb] at h
                simp only [spectrumAt, Except.ok.injEq, Prod.mk.injEq] at h
                exact ⟨mf + mb * 20, h.1.symm, by rw [← h.1]; exact h.2.symm⟩

lemma get_ir_spectra_some_ok (m : IRDielectricTensor) (broad : Broad) (emin emax : ℚ)
    (divs : ℕ) (grid : List ℚ) (field : List T3)
    (h : IRDielectricTensor.get_ir_spectra m broad emin (some emax) divs
        = Except.ok (grid, field)) :
    grid = linspace emin emax divs
      ∧ field = grid.map (fun w => sumModes m (resolvedBroad m broad) w + epsT m) := by
  unfold IRDielectricTensor.get_ir_spectra at h
  by_cases hlen : (resolvedBroad m broad).length ≠ m.nphfreqs
  · rw [if_pos hlen] at h
    exact absurd h (by simp)
  · rw [if_neg hlen] at h
    simp only [spectrumAt, Except.ok.injEq, Prod.mk.injEq] at h
    exact ⟨h.1.symm, by rw [← h.1]; exact h.2.symm⟩

lemma linspace_length (s e : ℚ) (n : ℕ) : (linspace s e n).length = n := by
  rcases n with _ | _ | n
  · rfl
  · rfl
  · rw [linspace, if_neg (by omega), if_neg (by omega), List.length_map,
      List.length_range]

lemma linspace_get (s e : ℚ) (n k : ℕ) (h2 : 2 ≤ n) (hk : k < (linspace s e n).length) :
    (linspace s e n).get ⟨k, hk⟩ = s + (e - s) * (k : ℚ) / ((n - 1 : ℕ) : ℚ) := by
  have hne0 : n ≠ 0 := by omega
  have hne1 : n ≠ 1 := by omega
  rw [List.get_eq_getElem]
  simp only [linspace, if_neg hne0, if_neg hne1] at hk ⊢
  rw [List.getElem_map, List.getElem_range]

/-- C1 — for every model, broadening, and grid frequency `w` sampled by
`get_ir_spectra`, the returned tensor at `w` is the sum over modes
`i = 3..N-1` of `oscillator_strength[i] / (frequency[i]^2 - w^2 - j*g_i)`
with `g_i = broadening[i]*frequency[i]`, plus `epsilon_infinity` added exactly
once: the returned field is the claim formula mapped over the returned grid. -/
theorem C1_lorentz_sum (m : IRDielectricTensor) (broad : Broad) (emin : ℚ)
    (emax? : Option ℚ) (divs : ℕ) (grid : List ℚ) (field : List T3)
    (h : IRDielectricTensor.get_ir_spectra m broad emin emax? divs
        = Except.ok (grid, field)) :
    field = grid.map (claimTensor m (resolvedBroad m broad)) := by
  obtain ⟨emax, hg, hf⟩ := get_ir_spectra_ok m broad emin emax? divs grid field h
  rw [hf]
  refine List.map_congr_left (fun w _ => ?_)
  rw [claimTensor_eq, sumModes_eq_sum]

/-- Witness for C1 at a concrete four-mode model with per-mode broadening. -/
theorem C1_lorentz_sum_witness :
    (spectrumAt mW (resolvedBroad mW (Broad.list lW)) 0 5 2).2
      = (spectrumAt mW (resolvedBroad mW (Broad.list lW)) 0 5 2).1.map
          (claimTensor mW (resolvedBroad mW (Broad.list lW))) :=
  C1_lorentz_sum mW (Broad.list lW) 0 (some 5) 2 _ _ rfl

/-- C3 counterexample — with `divisions = 1`, `freq_min = 0`, `freq_max = 5`,
`get_ir_spectra` (np.linspace's single-sample convention) returns the one-point
grid `[0]`: its last element is `0`, not `freq_max = 5`, so the claim fails at
`D = 1`. -/
theorem C3_counterexample :
    (IRDielectricTensor.get_ir_spectra mZ (Broad.scalar 1) 0 (some 5) 1).map Prod.fst
        = Except.ok [(0 : ℚ)]
      ∧ (0 : ℚ) ≠ 5 := by
  constructor
  · rfl
  · decide

/-- C3 (amended) — for every model, `D ≥ 2` and `freq_min ≤ freq_max`, the
grid returned by `get_ir_spectra` has exactly `D` samples, starts at
`freq_min`, ends at `freq_max`, and is monotonically non-decreasing (strictly
increasing when `freq_min < freq_max`). -/
theorem C3_grid_shape (m : IRDielectricTensor) (broad : Broad) (emin emax : ℚ)
    (divs : ℕ) (grid : List ℚ) (field : List T3) (hD : 2 ≤ divs)
    (hle : emin ≤ emax)
    (h : IRDielectricTensor.get_ir_spectra m broad emin (some emax) divs
        = Except.ok (grid, field)) :
    gridShapeProp grid emin emax divs := by
  obtain ⟨hg, -⟩ := get_ir_spectra_some_ok m broad emin emax divs grid field h
  subst hg
  have hlen : (linspace emin emax divs).length = divs := linspace_length emin emax divs
  have hd0 : (0 : ℚ) < ((divs - 1 : ℕ) : ℚ) := by
    rw [Nat.cast_pos]
    omega
  refine ⟨hlen, ?_, ?_, ?_, ?_⟩
  · intro h0
    rw [linspace_get emin emax divs 0 hD]
    simp
  · intro hl
    rw [linspace_get emin emax divs (divs - 1) hD]
    rw [mul_div_assoc, div_self (ne_of_gt hd0), mul_one]
    ring
  · intro a b hab
    rw [linspace_get emin emax divs a hD a.isLt, linspace_get emin emax divs b hD b.isLt]
    have hcast : ((a : ℕ) : ℚ) ≤ ((b : ℕ) : ℚ) := Nat.cast_le.mpr hab
    have hes : (0 : ℚ) ≤ emax - emin := sub_nonneg.mpr hle
    exact add_le_add_left
      ((div_le_div_iff_of_pos_right hd0).mpr (mul_le_mul_of_nonneg_left hcast hes)) emin
  · intro hlt a b hab
    rw [linspace_get emin emax divs a hD a.isLt, linspace_get emin emax divs b hD b.isLt]
    have hcast : ((a : ℕ) : ℚ) < ((b : ℕ) : ℚ) := Nat.cast_lt.mpr hab
    have hes : (0 : ℚ) < emax - emin := sub_pos.mpr hlt
    exact add_lt_add_left
      ((div_lt_div_iff_of_pos_right hd0).mpr (mul_lt_mul_of_pos_left hcast hes)) emin

/-- Witness for the amended C3 at `divisions = 5`, `freq_min = 0`,
`freq_max = 5`. -/
theorem C3_grid_shape_witness :
    2 ≤ 5 ∧ (0 : ℚ) ≤ 5
      ∧ gridShapeProp (spectrumAt mZ (resolvedBroad mZ (Broad.scalar 1)) 0 5 5).1 0 5 5 :=
  ⟨by decide, by decide,
    C3_grid_shape mZ (Broad.scalar 1) 0 5 5 _ _ (by decide) (by decide) rfl⟩

/-- C4 — a scalar broadening `b ≥ 0` gives the same result as the explicit
per-mode list `[b]*nphfreqs`, all other arguments equal. -/
theorem C4_scalar_broadening (m : IRDielectricTensor) (b : ℚ) (emin : ℚ)
    (emax? : Option ℚ) (divs : ℕ) (_hb : 0 ≤ b) :
    IRDielectricTensor.get_ir_spectra m (Broad.scalar b) emin emax? divs
      = IRDielectricTensor.get_ir_spectra m
          (Broad.list (List.replicate m.nphfreqs b)) emin emax? divs := rfl

/-- Witness for C4 at a concrete model and scalar broadening `1`. -/
theorem C4_scalar_broadening_witness :
    (0 : ℚ) ≤ 1
      ∧ IRDielectricTensor.get_ir_spectra mZ (Broad.scalar 1) 0 none 2
          = IRDielectricTensor.get_ir_spectra mZ
              (Broad.list (List.replicate mZ.nphfreqs 1)) 0 none 2 :=
  ⟨by decide, C4_scalar_broadening mZ 1 0 none 2 (by decide)⟩

/-- C5 — an explicit broadening list whose length differs from the number of
modes makes `get_ir_spectra` fail with the length-mismatch `ValueError`,
producing no result. -/
theorem C5_length_mismatch (m : IRDielectricTensor) (bs : List ℚ) (emin : ℚ)
    (emax? : Option ℚ) (divs : ℕ) (h : bs.length ≠ m.nphfreqs) :
    IRDielectricTensor.get_ir_spectra m (Broad.list bs) emin emax? divs
      = Except.error broadLenMsg := by
  unfold IRDielectricTensor.get_ir_spectra
  rw [if_pos]
  exact h

/-- Witness for C5: a one-element list against a four-mode model. -/
theorem C5_length_mismatch_witness :
    ([(1 : ℚ)].length ≠ mZ.nphfreqs)
      ∧ IRDielectricTensor.get_ir_spectra mZ (Broad.list [1]) 0 none 2
          = Except.error broadLenMsg :=
  ⟨by decide, C5_length_mismatch mZ [1] 0 none 2 (by decide)⟩

/-- C7 — when `freq_max` is unset, `get_ir_spectra` behaves exactly as if the
upper grid bound `max_phfreq + max(broadening)*20` had been passed explicitly,
for every model and valid broadening (scalar or per-mode list). -/
theorem C7_default_emax (m : IRDielectricTensor) (broad : Broad) (emin : ℚ)
    (divs : ℕ) (mf mb : ℚ)
    (hf : IRDielectricTensor.max_phfreq m = some mf)
    (hb : listMax (resolvedBroad m broad) = some mb) :
    IRDielectricTensor.get_ir_spectra m broad emin none divs
      = IRDielectricTensor.get_ir_spectra m broad emin (some (mf + mb * 20)) divs := by
  unfold IRDielectricTensor.get_ir_spectra
  by_cases hlen : (resolvedBroad m broad).length ≠ m.nphfreqs
  · rw [if_pos hlen, if_pos hlen]
  · rw [if_neg hlen, if_neg hlen, hf, hb]

/-- Witness for C7: the four-mode model with unit scalar broadening, where
`max_phfreq = 1` and `max(broad) = 1`, so the default bound is `1 + 1*20`. -/
theorem C7_default_emax_witness :
    IRDielectricTensor.max_phfreq mZ = some 1
      ∧ listMax (resolvedBroad mZ (Broad.scalar 1)) = some 1
      ∧ IRDielectricTensor.get_ir_spectra mZ (Broad.scalar 1) 0 none 2
          = IRDielectricTensor.get_ir_spectra mZ (Broad.scalar 1) 0
              (some ((1 : ℚ) + 1 * 20)) 2 :=
  ⟨by decide, by decide, C7_default_emax mZ (Broad.scalar 1) 0 2 1 1 (by decide) (by decide)⟩

/-- C8 — for a model with fewer than three modes the optical sum of
`get_ir_spectra` is empty (the accumulation loop adds nothing), and every
sampled tensor of a returned field equals `epsilon_infinity` exactly. -/
theorem C8_few_modes (m : IRDielectricTensor) (broad : Broad) (emin : ℚ)
    (emax? : Option ℚ) (divs : ℕ) (h3 : m.nphfreqs < 3) :
    (∀ bl w, sumModes m bl w = zeroT)
      ∧ ∀ grid field,
          IRDielectricTensor.get_ir_spectra m broad emin emax? divs
            = Except.ok (grid, field) →
          ∀ t ∈ field, t = epsT m := by
  have hempty : ∀ bl w, sumModes m bl w = zeroT := by
    intro bl w
    unfold sumModes
    rw [show m.nphfreqs - 3 = 0 from by omega]
    rfl
  refine ⟨hempty, ?_⟩
  intro grid field h t ht
  obtain ⟨emax, -, hf⟩ := get_ir_spectra_ok m broad emin emax? divs grid field h
  rw [hf] at ht
  obtain ⟨w, -, rfl⟩ := List.mem_map.mp ht
  rw [hempty, zeroT_eq_zero, zero_add]

/-- Witness for C8: a two-mode model with a nonzero `epsilon_infinity`. -/
theorem C8_few_modes_witness :
    mS.nphfreqs < 3
      ∧ ((∀ bl w, sumModes mS bl w = zeroT)
          ∧ ∀ grid field,
              IRDielectricTensor.get_ir_spectra mS (Broad.scalar 1) 0 (some 1) 2
                = Except.ok (grid, field) →
              ∀ t ∈ field, t = epsT mS) :=
  ⟨by decide, C8_few_modes mS (Broad.scalar 1) 0 (some 1) 2 (by decide)⟩

/-- C6 — a component specifier fails `get_plotter`'s validation exactly when
its length is not 2 or it contains an item outside the recognized set
(characters `x`,`y`,`z` and indices `0`,`1`,`2`); every two-item specifier over
the recognized set is accepted and resolved to the mapped direction indices. -/
theorem C6_component_validation :
    (∀ comp : List DirItem,
        (∃ e, resolveComponent comp = Except.error e)
          ↔ (comp.length ≠ 2 ∨ ∃ d ∈ comp, directions_map d = none))
      ∧ ∀ (d1 d2 : DirItem) (i j : Fin 3),
          directions_map d1 = some i → directions_map d2 = some j →
          resolveComponent [d1, d2] = Except.ok (i, j) := by
  constructor
  · intro comp
    unfold resolveComponent
    by_cases hc : (¬ ∀ d ∈ comp, (directions_map d).isSome) ∨ comp.length ≠ 2
    · rw [if_pos hc]
      simp only [Except.error.injEq, exists_eq]
      constructor
      · intro _
        rcases hc with hc | hc
        · right
          push_neg at hc
          obtain ⟨d, hd, hnone⟩ := hc
          exact ⟨d, hd, Option.not_isSome_iff_eq_none.mp hnone⟩
        · left; exact hc
      · intro _
        exact ⟨invalidComponentMsg comp, rfl⟩
    · rw [if_neg hc]
      push_neg at hc
      constructor
      · rintro ⟨e, he⟩
        exact absurd he (by simp)
      · rintro (hlen | ⟨d, hd, hnone⟩)
        · exact absurd hc.2 hlen
        · have := hc.1 d hd
          rw [hnone] at this
          exact absurd this (by simp)
  · intro d1 d2 i j h1 h2
    unfold resolveComponent
    rw [if_neg]
    · simp [h1, h2]
    · push_neg
      refine ⟨?_, rfl⟩
      intro d hd
      rcases List.mem_cons.mp hd with hd1 | hd
      · subst hd1
        rw [h1]
        rfl
      · rcases List.mem_cons.mp hd with hd2 | hd
        · subst hd2
          rw [h2]
          rfl
        · cases hd

/-- Witness for C6: the specifier `['x', 2]` resolves to `(0, 2)`. -/
theorem C6_component_validation_witness :
    directions_map (DirItem.chr 'x') = some 0
      ∧ directions_map (DirItem.idx 2) = some 2
      ∧ resolveComponent [DirItem.chr 'x', DirItem.idx 2] = Except.ok (0, 2) :=
  ⟨rfl, rfl, C6_component_validation.2 (DirItem.chr 'x') (DirItem.idx 2) 0 2 rfl rfl⟩

lemma plotterLoop_curves (g : List ℚ) (f : List T3) (reim : String) :
    ∀ (comps : List (List DirItem)) (curves : List SpectrumCurve),
      plotterLoop g f reim comps = Except.ok curves →
      ∀ c ∈ curves, c.x = g.map (fun w => w * 1000)
        ∧ ∃ i j fstr, fstr ∈ partsFor reim
            ∧ c.y = f.map (fun t => applyPart fstr (t i j)) := by
  intro comps
  induction comps with
  | nil =>
      intro curves h c hc
      unfold plotterLoop at h
      obtain rfl : ([] : List SpectrumCurve) = curves := by
        simpa using h
      cases hc
  | cons comp rest ih =>
      intro curves h c hc
      unfold plotterLoop at h
      cases hr : resolveComponent comp with
      | error e => rw [hr] at h; exact absurd h (by simp)
      | ok ij =>
          obtain ⟨i, j⟩ := ij
          rw [hr] at h
          cases hrest : plotterLoop g f reim rest with
          | error e => rw [hrest] at h; exact absurd h (by simp)
          | ok curves' =>
              rw [hrest] at h
              simp only [Except.ok.injEq] at h
              subst h
              rcases List.mem_append.mp hc with hmem | hmem
              · obtain ⟨fstr, hfstr, rfl⟩ := List.mem_map.mp hmem
                exact ⟨rfl, i, j, fstr, hfstr, rfl⟩
              · exact ih curves' hrest c hmem

/-- C10 — whenever `get_plotter` succeeds, its curves are derived from the
spectrum recomputed internally with the default parameters
(`broad = 0.00005`, `emin = 0`, `emax = None`, `divs = 500`): that call
succeeds, the curves are its `plotterLoop` output, and each curve's data is
the rescaled default grid and a selected part of the default field — so the
curves are independent of any spectrum previously computed by the caller. -/
theorem C10_plotter_defaults (m : IRDielectricTensor) (comps : List (List DirItem))
    (reim : String) (curves : List SpectrumCurve)
    (h : IRDielectricTensor.get_plotter m comps reim = Except.ok curves) :
    ∃ g f,
      IRDielectricTensor.get_ir_spectra m (Broad.scalar (5 / 100000)) 0 none 500
          = Except.ok (g, f)
        ∧ plotterLoop g f reim comps = Except.ok curves
        ∧ ∀ c ∈ curves, c.x = g.map (fun w => w * 1000)
          ∧ ∃ i j fstr, fstr ∈ partsFor reim
              ∧ c.y = f.map (fun t => applyPart fstr (t i j)) := by
  unfold IRDielectricTensor.get_plotter at h
  cases hs : IRDielectricTensor.get_ir_spectra m (Broad.scalar (5 / 100000)) 0 none 500 with
  | error e => rw [hs] at h; exact absurd h (by simp)
  | ok gf =>
      obtain ⟨g, f⟩ := gf
      rw [hs] at h
      exact ⟨g, f, rfl, h, plotterLoop_curves g f reim comps curves h⟩

/-- Witness for C10: the concrete model `mZ` with an empty component list and
the default `reim` string. -/
theorem C10_plotter_defaults_witness :
    ∃ g f,
      IRDielectricTensor.get_ir_spectra mZ (Broad.scalar (5 / 100000)) 0 none 500
          = Except.ok (g, f)
        ∧ plotterLoop g f reimDefault [] = Except.ok []
        ∧ ∀ c ∈ ([] : List SpectrumCurve), c.x = g.map (fun w => w * 1000)
          ∧ ∃ i j fstr, fstr ∈ partsFor reimDefault
              ∧ c.y = f.map (fun t => applyPart fstr (t i j)) :=
  C10_plotter_defaults mZ [] reimDefault [] rfl

end IRSpectra
